import Mathlib

/-!
Verification of the batch feature-extraction script `extract.py`
(written by the notebook cell in the repository): it enumerates labeled
images from six fixed category directories, shuffles them, partitions
them into batches, runs each batch through a feature extractor, and
returns a feature matrix together with a row-aligned label vector.

The filesystem, the random shuffle and the third-party feature
extractor are external effects; they are modelled as explicit
parameters.  Everything else is translated directly from the source.
-/

namespace Extract

/-- Raw content of an image file, as the list of its bytes
(`f.read()` in `load_images`). -/
abbrev Bytes := List Nat

/-- The filesystem as seen by the script: `listdir` returns the entries
of a directory (`none` when the directory is missing, in which case
`os.listdir` raises) and `readFile` returns a file's bytes (`none` when
the file is unreadable, in which case `open`/`read` raises). -/
structure FileSystem where
  listdir : String → Option (List String)
  readFile : String → Option Bytes

/-- `os.path.join` for the two-component joins used by the script. -/
def pathJoin (a b : String) : String := a ++ "/" ++ b

/-- The hard-coded dictionary mapping the six category names to numeric
labels, in insertion order (source: `label_map`). -/
def label_map : List (String × Nat) :=
  [("Barren", 0), ("Cultivated", 1), ("Developed", 2),
   ("Forest", 3), ("Herbaceous", 4), ("Shrub", 5)]

/-- `folders = list(label_map.keys())`. -/
def folders : List String := label_map.map Prod.fst

/-- Modelled from the spec: the pre-trained feature extractor
(`QuantizedResnet50` behind `sess.run`, a third-party runtime absent
from the repository) is an opaque "bytes-in, fixed-length-vector-out"
map producing a 2048-dimensional vector per image. -/
structure Extractor where
  featurize : Bytes → List Float
  featurize_len : ∀ b, (featurize b).length = 2048

/-- `get_batch(pathnames, batchsize=64)`: yield successive contiguous
slices `pathnames[i:i+batchsize]` for `i = 0, batchsize, 2*batchsize, …`
(`range(0, len(pathnames), batchsize)` raises for step 0, so a zero
batch size yields nothing). -/
def get_batch (pathnames : List α) (batchsize : Nat) : List (List α) :=
  match pathnames with
  | [] => []
  | p :: rest =>
    if batchsize = 0 then []
    else
      (p :: rest).take batchsize ::
        get_batch ((p :: rest).drop batchsize) batchsize
termination_by pathnames.length
decreasing_by
  simp only [List.length_drop, List.length_cons]
  omega

/-- `load_images(batch)`: read every path in the batch; any unreadable
file aborts the run. -/
def load_images (fs : FileSystem) (batch : List String) : Option (List Bytes) :=
  batch.mapM fs.readFile

/-- The list built by the comprehension in `create_bottleneck_features`:
for each folder of `label_map` (in order), pair each entry of
`os.listdir(os.path.join(img_dir, folder))` with the folder's numeric
label.  A missing category directory makes `os.listdir` raise, aborting
the run (`none`). -/
def labeledImageList (fs : FileSystem) (img_dir : String) :
    Option (List (String × Nat)) :=
  (label_map.mapM (fun fl =>
      (fs.listdir (pathJoin img_dir fl.1)).map (fun images =>
        images.map (fun image =>
          (pathJoin (pathJoin img_dir fl.1) image, fl.2))))).map List.flatten

/-- Result of a successful run: the two datasets written to the HDF5
file, `features` (one 2048-vector per row) and `labels`. -/
structure Output where
  features : List (List Float)
  labels : List Nat
deriving Repr

/-- `create_bottleneck_features()`, with the external effects explicit:
`shuffle` stands for `random.shuffle` (an arbitrary permutation of the
labeled list), `ex` for the feature-extraction graph and `fs` for the
filesystem.  Faithful to the source, the batch loop calls
`get_batch(image_paths)` with the function's own default of 64 — the
`batch_size` command-line flag is never passed.  An empty labeled list
makes `image_paths, labels = zip(*labeled_image_list)` raise
(`zip()` of nothing yields nothing to unpack), hence `none`. -/
def create_bottleneck_features (ex : Extractor)
    (shuffle : List (String × Nat) → List (String × Nat))
    (fs : FileSystem) (img_dir : String) : Option Output :=
  (labeledImageList fs img_dir).bind (fun l =>
    let shuffled := shuffle l
    if shuffled.isEmpty then none
    else
      let image_paths := shuffled.map Prod.fst
      let labels := shuffled.map Prod.snd
      ((get_batch image_paths 64).mapM (fun paths =>
          (load_images fs paths).map (fun imgs => imgs.map ex.featurize))).map
        (fun batchResults => ⟨batchResults.flatten, labels⟩))

/-- The command-line flags declared via `tf.app.flags`, with the
documented defaults. -/
structure Flags where
  batch_size : Nat
  input_data_dir : String
  output_data_dir : String
  file_name : String

/-- The defaults of the four `DEFINE_*` calls. -/
def defaultFlags : Flags :=
  ⟨64, "aerialtiny", "bottleneck_features", "aerial_bottleneck_resnet50.h5"⟩

/-- The batches actually fed to the extractor during a run with the
given flags: the source calls `get_batch(image_paths)`, leaving
`batchsize` at its default 64 whatever `FLAGS.batch_size` is. -/
def batchesUsed (shuffle : List (String × Nat) → List (String × Nat))
    (fs : FileSystem) (flags : Flags) : Option (List (List String)) :=
  (labeledImageList fs flags.input_data_dir).map (fun l =>
    get_batch ((shuffle l).map Prod.fst) 64)

/-- The whole job as launched by `main`: reads the input directory from
the flags. -/
def run_job (ex : Extractor)
    (shuffle : List (String × Nat) → List (String × Nat))
    (fs : FileSystem) (flags : Flags) : Option Output :=
  create_bottleneck_features ex shuffle fs flags.input_data_dir

/- ### Derived quantities used in the statements -/

/-- The listing of one category directory (the empty list when the
directory is missing; only meaningful under a presence hypothesis). -/
def listingOf (fs : FileSystem) (img_dir folder : String) : List String :=
  (fs.listdir (pathJoin img_dir folder)).getD []

/-- The (path, label) pairs contributed by one entry of `label_map`. -/
def folderPairs (fs : FileSystem) (img_dir : String) (fl : String × Nat) :
    List (String × Nat) :=
  (listingOf fs img_dir fl.1).map (fun image =>
    (pathJoin (pathJoin img_dir fl.1) image, fl.2))

/-- The full labeled image list, category by category in `label_map`
order (the value of `labeled_image_list` on a readable tree). -/
def allPairs (fs : FileSystem) (img_dir : String) : List (String × Nat) :=
  (label_map.map (folderPairs fs img_dir)).flatten

/-- Total number of files found across the six category directories. -/
def totalImageCount (fs : FileSystem) (img_dir : String) : Nat :=
  (folders.map (fun folder => (listingOf fs img_dir folder).length)).sum

/- ### Concrete fixtures for instantiating the theorems -/

/-- A concrete extractor: every image maps to the zero vector of
length 2048. -/
def constExtractor : Extractor where
  featurize _ := List.replicate 2048 0.0
  featurize_len _ := List.length_replicate ..

/-- A concrete input tree: `d/Barren` holds 3 files, `d/Cultivated`
holds 5, the other four category directories exist and are empty;
every file reads as empty bytes. -/
def fsW : FileSystem where
  listdir p :=
    if p = "d/Barren" then some ["a", "b", "c"]
    else if p = "d/Cultivated" then some ["e", "f", "g", "h", "i"]
    else if p = "d/Developed" ∨ p = "d/Forest" ∨
            p = "d/Herbaceous" ∨ p = "d/Shrub" then some []
    else none
  readFile _ := some []

/-- An input tree holding only the two populated category directories;
the other four are absent. -/
def fsTwoOnly : FileSystem where
  listdir p :=
    if p = "d/Barren" then some ["a", "b", "c"]
    else if p = "d/Cultivated" then some ["e", "f", "g", "h", "i"]
    else none
  readFile _ := some []

/-- An input tree where all six category directories exist and all are
empty. -/
def fsAllEmpty : FileSystem where
  listdir p :=
    if p ∈ ["d/Barren", "d/Cultivated", "d/Developed",
            "d/Forest", "d/Herbaceous", "d/Shrub"] then some [] else none
  readFile _ := some []

/-- Flags requesting batch size 4 on the command line. -/
def flagsB : Flags := ⟨4, "d", "o", "out.h5"⟩

end Extract

namespace Extract

/- ### Lemmas about `get_batch` -/

theorem get_batch_flatten (l : List α) (b : Nat) (hb : 0 < b) :
    (get_batch l b).flatten = l := by
  induction l, b using get_batch.induct with
  | case1 b => simp [get_batch]
  | case2 p rest => exact absurd hb (lt_irrefl 0)
  | case3 b p rest hne ih =>
    rw [get_batch]
    simp only [if_neg hne, List.flatten_cons]
    rw [ih (Nat.pos_of_ne_zero hne), List.take_append_drop]

theorem get_batch_length_le (l : List α) (b : Nat) :
    ∀ batch ∈ get_batch l b, batch.length ≤ b := by
  induction l, b using get_batch.induct with
  | case1 b => simp [get_batch]
  | case2 p rest =>
    rw [get_batch]
    simp
  | case3 b p rest hne ih =>
    rw [get_batch]
    simp only [if_neg hne]
    intro batch hm
    rcases List.mem_cons.mp hm with h1 | h2
    · subst h1
      simp [List.length_take]
    · exact ih batch h2

theorem get_batch_dropLast_length (l : List α) (b : Nat) (hb : 0 < b) :
    ∀ batch ∈ (get_batch l b).dropLast, batch.length = b := by
  induction l, b using get_batch.induct with
  | case1 b => simp [get_batch]
  | case2 p rest => exact absurd hb (lt_irrefl 0)
  | case3 b p rest hne ih =>
    rw [get_batch]
    simp only [if_neg hne]
    cases hrec : get_batch ((p :: rest).drop b) b with
    | nil => simp [hrec]
    | cons q qs =>
      intro batch hm
      rw [List.dropLast_cons_of_ne_nil (by simp)] at hm
      rcases List.mem_cons.mp hm with h1 | h2
      · subst h1
        have hlen : b ≤ (p :: rest).length := by
          by_contra hlt
          push_neg at hlt
          have hnil : (p :: rest).drop b = [] :=
            List.drop_eq_nil_of_le (le_of_lt hlt)
          rw [hnil] at hrec
          simp [get_batch] at hrec
        simp only [List.length_take, List.length_cons] at hlen ⊢
        omega
      · exact ih (Nat.pos_of_ne_zero hne) batch (hrec ▸ h2)

theorem get_batch_eq_single (l : List α) (b : Nat)
    (hpos : 0 < l.length) (hle : l.length ≤ b) :
    get_batch l b = [l] := by
  cases l with
  | nil => simp at hpos
  | cons p rest =>
    have hb : b ≠ 0 := by
      intro h0
      rw [h0] at hle
      simp at hle
    rw [get_batch, if_neg hb, List.take_of_length_le hle,
      List.drop_eq_nil_of_le hle, get_batch]

/- ### Option-valued traversal (the modelling of exception propagation) -/

theorem mapM_option_eq_some {α β} (f : α → Option β) (g : α → β) (l : List α)
    (h : ∀ a ∈ l, f a = some (g a)) : l.mapM f = some (l.map g) := by
  induction l with
  | nil => rfl
  | cons x xs ih =>
    rw [List.mapM_cons, h x (List.mem_cons_self x xs),
      ih (fun a ha => h a (List.mem_cons_of_mem x ha))]
    rfl

theorem mapM_option_eq_none {α β} (f : α → Option β) (l : List α) (a : α)
    (ha : a ∈ l) (hf : f a = none) : l.mapM f = none := by
  induction l with
  | nil => cases ha
  | cons x xs ih =>
    rw [List.mapM_cons]
    rcases List.mem_cons.mp ha with h1 | h2
    · subst h1
      rw [hf]
      rfl
    · cases hx : f x with
      | none => rfl
      | some y =>
        rw [ih h2]
        rfl

/- ### The labeled image list -/

theorem labeledImageList_eq_some (fs : FileSystem) (img_dir : String)
    (hdirs : ∀ folder ∈ folders, (fs.listdir (pathJoin img_dir folder)).isSome) :
    labeledImageList fs img_dir = some (allPairs fs img_dir) := by
  unfold labeledImageList allPairs
  rw [mapM_option_eq_some _ (folderPairs fs img_dir) _ ?_]
  · rfl
  · intro fl hfl
    have hs := hdirs fl.1 (List.mem_map_of_mem Prod.fst hfl)
    rcases Option.isSome_iff_exists.mp hs with ⟨v, hv⟩
    simp [hv, folderPairs, listingOf]

theorem labeledImageList_eq_none (fs : FileSystem) (img_dir : String)
    (hmiss : ∃ folder ∈ folders, fs.listdir (pathJoin img_dir folder) = none) :
    labeledImageList fs img_dir = none := by
  rcases hmiss with ⟨folder, hfolder, hnone⟩
  rcases List.mem_map.mp hfolder with ⟨fl, hfl, rfl⟩
  unfold labeledImageList
  rw [mapM_option_eq_none _ _ fl hfl (by simp [hnone])]
  rfl

theorem allPairs_length (fs : FileSystem) (img_dir : String) :
    (allPairs fs img_dir).length = totalImageCount fs img_dir := by
  unfold allPairs totalImageCount folders
  rw [List.length_flatten, List.map_map, List.map_map]
  congr 1
  apply List.map_congr_left
  intro fl _
  simp [folderPairs, Function.comp]

theorem mem_allPairs {fs : FileSystem} {img_dir : String} {pr : String × Nat}
    (h : pr ∈ allPairs fs img_dir) :
    ∃ fl ∈ label_map, ∃ image ∈ listingOf fs img_dir fl.1,
      pr = (pathJoin (pathJoin img_dir fl.1) image, fl.2) := by
  simp only [allPairs, List.mem_flatten, List.mem_map] at h
  rcases h with ⟨_, ⟨fl, hfl, rfl⟩, hmem⟩
  simp only [folderPairs, List.mem_map] at hmem
  rcases hmem with ⟨image, himg, heq⟩
  exact ⟨fl, hfl, image, himg, heq.symm⟩

theorem allPairs_map_snd (fs : FileSystem) (img_dir : String) :
    (allPairs fs img_dir).map Prod.snd =
      (label_map.map (fun fl =>
        List.replicate (listingOf fs img_dir fl.1).length fl.2)).flatten := by
  unfold allPairs
  rw [List.map_flatten, List.map_map]
  congr 1
  apply List.map_congr_left
  intro fl _
  simp [folderPairs, Function.comp_def, List.map_const']

/- ### The successful run, in closed form -/

theorem create_eq_some (ex : Extractor)
    (shuffle : List (String × Nat) → List (String × Nat))
    (fs : FileSystem) (img_dir : String)
    (hdirs : ∀ folder ∈ folders, (fs.listdir (pathJoin img_dir folder)).isSome)
    (hperm : ∀ xs, (shuffle xs).Perm xs)
    (hne : allPairs fs img_dir ≠ [])
    (hread : ∀ pr ∈ allPairs fs img_dir, (fs.readFile pr.1).isSome) :
    create_bottleneck_features ex shuffle fs img_dir =
      some ⟨(shuffle (allPairs fs img_dir)).map
              (fun pr => ex.featurize ((fs.readFile pr.1).getD [])),
            (shuffle (allPairs fs img_dir)).map Prod.snd⟩ := by
  have hl := labeledImageList_eq_some fs img_dir hdirs
  have hpermA := hperm (allPairs fs img_dir)
  cases hs : shuffle (allPairs fs img_dir) with
  | nil =>
    exact absurd (hs ▸ hpermA : ([] : List (String × Nat)).Perm _).symm.eq_nil
      (fun h0 => hne h0)
  | cons q qs =>
    have hqs : (q :: qs).Perm (allPairs fs img_dir) := by
      rw [← hs]
      exact hpermA
    have hmapM : (get_batch ((q :: qs).map Prod.fst) 64).mapM (fun paths =>
        (load_images fs paths).map (fun imgs => imgs.map ex.featurize)) =
        some ((get_batch ((q :: qs).map Prod.fst) 64).map (fun paths =>
          paths.map (fun p => ex.featurize ((fs.readFile p).getD [])))) := by
      apply mapM_option_eq_some
      intro paths hpaths
      have hload : load_images fs paths =
          some (paths.map (fun p => (fs.readFile p).getD [])) := by
        apply mapM_option_eq_some
        intro p hp
        have hpin : p ∈ (q :: qs).map Prod.fst := by
          rw [← get_batch_flatten ((q :: qs).map Prod.fst) 64 (by norm_num)]
          exact List.mem_flatten.mpr ⟨paths, hpaths, hp⟩
        rcases List.mem_map.mp hpin with ⟨pr, hpr, rfl⟩
        have hprA : pr ∈ allPairs fs img_dir := hqs.mem_iff.mp hpr
        rcases Option.isSome_iff_exists.mp (hread pr hprA) with ⟨b, hb⟩
        rw [hb]
        rfl
      rw [hload]
      simp [List.map_map, Function.comp]
    unfold create_bottleneck_features
    rw [hl, Option.some_bind]
    simp only [hs, List.isEmpty_cons, Bool.false_eq_true, if_false, hmapM,
      Option.map_some']
    congr 1
    rw [← List.map_flatten, get_batch_flatten _ _ (by norm_num), List.map_map]
    rfl

/- ### Claim theorems -/

/-- C4: for every list of pathnames and every positive batch size, the
batches yielded by `get_batch` are contiguous slices partitioning the
input exactly: their concatenation in yield order equals the input list
(so every entry appears exactly once), all batches except possibly the
last have exactly the batch size, and every batch (hence also the last)
has at most the batch size. -/
theorem get_batch_partition (l : List α) (b : Nat) (hb : 0 < b) :
    (get_batch l b).flatten = l ∧
    (∀ batch ∈ (get_batch l b).dropLast, batch.length = b) ∧
    ∀ batch ∈ get_batch l b, batch.length ≤ b :=
  ⟨get_batch_flatten l b hb, get_batch_dropLast_length l b hb,
    get_batch_length_le l b⟩

/-- Witness for C4 at the concrete list `[10, 11, 12, 13, 14]` with
batch size 2. -/
theorem get_batch_partition_witness :
    0 < 2 ∧
    ((get_batch [10, 11, 12, 13, 14] 2).flatten = [10, 11, 12, 13, 14] ∧
     (∀ batch ∈ (get_batch [10, 11, 12, 13, 14] 2).dropLast,
        batch.length = 2) ∧
     ∀ batch ∈ get_batch [10, 11, 12, 13, 14] 2, batch.length ≤ 2) :=
  ⟨by decide, get_batch_partition [10, 11, 12, 13, 14] 2 (by decide)⟩

/-- C8: whenever the input list is nonempty and no longer than the
batch size, `get_batch` yields exactly one batch containing all the
entries. -/
theorem get_batch_single_batch (l : List α) (b : Nat)
    (hpos : 0 < l.length) (hle : l.length ≤ b) :
    get_batch l b = [l] :=
  get_batch_eq_single l b hpos hle

/-- Witness for C8 at the concrete list `["x", "y", "z"]` with batch
size 64. -/
theorem get_batch_single_batch_witness :
    0 < (["x", "y", "z"] : List String).length ∧
    (["x", "y", "z"] : List String).length ≤ 64 ∧
    get_batch ["x", "y", "z"] 64 = [["x", "y", "z"]] :=
  ⟨by decide, by decide,
    get_batch_single_batch ["x", "y", "z"] 64 (by decide) (by decide)⟩

/-- C3 fails on the code: with `batch_size` 4 on the command line and 8
images on disk, the single batch fed to the extractor holds all 8
images (the source calls `get_batch(image_paths)` without passing
`FLAGS.batch_size`, so the function default 64 is always used), not
batches of maximum size 4 as the `batch_size` flag documents. -/
theorem batch_size_flag_ignored :
    batchesUsed id fsW flagsB = some [(allPairs fsW "d").map Prod.fst] ∧
    ((allPairs fsW "d").map Prod.fst).length = 8 ∧
    flagsB.batch_size = 4 := by
  refine ⟨?_, by decide, rfl⟩
  show (labeledImageList fsW "d").map _ = _
  rw [labeledImageList_eq_some fsW "d" (by decide), Option.map_some']
  congr 1
  exact get_batch_eq_single _ 64 (by decide) (by decide)

/-- C10: when all six category directories exist but every one of them
is empty, the run aborts (unpacking `zip(*labeled_image_list)` of the
empty list fails) before any feature extraction or writing, producing
no artifact. -/
theorem create_bottleneck_features_all_empty (ex : Extractor)
    (shuffle : List (String × Nat) → List (String × Nat))
    (fs : FileSystem) (img_dir : String)
    (hperm : ∀ xs, (shuffle xs).Perm xs)
    (hempty : ∀ folder ∈ folders,
      fs.listdir (pathJoin img_dir folder) = some []) :
    create_bottleneck_features ex shuffle fs img_dir = none := by
  have hdirs : ∀ folder ∈ folders,
      (fs.listdir (pathJoin img_dir folder)).isSome := by
    intro folder hf
    rw [hempty folder hf]
    rfl
  have hA : allPairs fs img_dir = [] := by
    unfold allPairs
    rw [List.flatten_eq_nil_iff]
    intro l hl
    rcases List.mem_map.mp hl with ⟨fl, hfl, rfl⟩
    simp [folderPairs, listingOf,
      hempty fl.1 (List.mem_map_of_mem Prod.fst hfl)]
  have hsnil : shuffle (allPairs fs img_dir) = [] := by
    rw [hA]
    exact (hperm []).eq_nil
  unfold create_bottleneck_features
  rw [labeledImageList_eq_some fs img_dir hdirs, Option.some_bind]
  simp only [hsnil, List.isEmpty_nil, if_true]

/-- Witness for C10: all six directories present and empty. -/
theorem create_bottleneck_features_all_empty_witness :
    create_bottleneck_features constExtractor id fsAllEmpty "d" = none :=
  create_bottleneck_features_all_empty constExtractor id fsAllEmpty "d"
    (fun xs => List.Perm.refl xs) (by decide)

/-- C5: the job is fail-fast — a missing category directory, or any
unreadable file among the listed images, makes the whole run abort with
no output artifact (the model returns the result only after every batch
has been read and featurized, mirroring the code, which opens the
output file only after the batch loop). -/
theorem create_bottleneck_features_fail_fast (ex : Extractor)
    (shuffle : List (String × Nat) → List (String × Nat))
    (fs : FileSystem) (img_dir : String)
    (hperm : ∀ xs, (shuffle xs).Perm xs)
    (hfail : (∃ folder ∈ folders,
        fs.listdir (pathJoin img_dir folder) = none) ∨
      ((∀ folder ∈ folders, (fs.listdir (pathJoin img_dir folder)).isSome) ∧
       ∃ pr ∈ allPairs fs img_dir, fs.readFile pr.1 = none)) :
    create_bottleneck_features ex shuffle fs img_dir = none := by
  rcases hfail with hmiss | ⟨hdirs, pr, hpr, hnone⟩
  · unfold create_bottleneck_features
    rw [labeledImageList_eq_none fs img_dir hmiss]
    rfl
  · unfold create_bottleneck_features
    rw [labeledImageList_eq_some fs img_dir hdirs, Option.some_bind]
    cases hs : shuffle (allPairs fs img_dir) with
    | nil => simp only [hs, List.isEmpty_nil, if_true]
    | cons q qs =>
      have hqs : (q :: qs).Perm (allPairs fs img_dir) := by
        rw [← hs]
        exact hperm _
      have hp1 : pr.1 ∈ (q :: qs).map Prod.fst :=
        List.mem_map_of_mem Prod.fst (hqs.mem_iff.mpr hpr)
      have hflat : pr.1 ∈ (get_batch ((q :: qs).map Prod.fst) 64).flatten := by
        rw [get_batch_flatten _ _ (by norm_num)]
        exact hp1
      rcases List.mem_flatten.mp hflat with ⟨paths, hpaths, hppaths⟩
      have hload : load_images fs paths = none :=
        mapM_option_eq_none _ _ pr.1 hppaths hnone
      simp only [hs, List.isEmpty_cons, Bool.false_eq_true, if_false]
      rw [mapM_option_eq_none _ _ paths hpaths (by rw [hload]; rfl)]
      rfl

/-- Witness for C5: four of the six category directories are missing,
so the run aborts. -/
theorem create_bottleneck_features_fail_fast_witness :
    create_bottleneck_features constExtractor id fsTwoOnly "d" = none :=
  create_bottleneck_features_fail_fast constExtractor id fsTwoOnly "d"
    (fun xs => List.Perm.refl xs) (Or.inl (by decide))

/-- C1: on a valid input tree (all six category directories present,
every listed file readable) holding at least one image, the produced
artifact has `len(features) = len(labels) =` the total number of files
found across the six category directories, and every feature row has
exactly 2048 entries. -/
theorem create_bottleneck_features_shape (ex : Extractor)
    (shuffle : List (String × Nat) → List (String × Nat))
    (fs : FileSystem) (img_dir : String)
    (hdirs : ∀ folder ∈ folders, (fs.listdir (pathJoin img_dir folder)).isSome)
    (hread : ∀ pr ∈ allPairs fs img_dir, (fs.readFile pr.1).isSome)
    (hperm : ∀ xs, (shuffle xs).Perm xs)
    (hpos : 0 < totalImageCount fs img_dir) :
    ∃ out, create_bottleneck_features ex shuffle fs img_dir = some out ∧
      out.features.length = totalImageCount fs img_dir ∧
      out.labels.length = totalImageCount fs img_dir ∧
      ∀ row ∈ out.features, row.length = 2048 := by
  have hne : allPairs fs img_dir ≠ [] := by
    intro h0
    rw [← allPairs_length fs img_dir, h0] at hpos
    simp at hpos
  refine ⟨_, create_eq_some ex shuffle fs img_dir hdirs hperm hne hread,
    ?_, ?_, ?_⟩
  · simp [(hperm (allPairs fs img_dir)).length_eq, allPairs_length]
  · simp [(hperm (allPairs fs img_dir)).length_eq, allPairs_length]
  · intro row hrow
    rcases List.mem_map.mp hrow with ⟨pr, _, rfl⟩
    exact ex.featurize_len _

/-- Witness for C1 at a concrete tree with 3 + 5 images. -/
theorem create_bottleneck_features_shape_witness :
    ∃ out, create_bottleneck_features constExtractor id fsW "d" = some out ∧
      out.features.length = totalImageCount fsW "d" ∧
      out.labels.length = totalImageCount fsW "d" ∧
      ∀ row ∈ out.features, row.length = 2048 :=
  create_bottleneck_features_shape constExtractor id fsW "d"
    (by decide) (by decide) (fun xs => List.Perm.refl xs) (by decide)

/-- C2: in the produced artifact, row `i` of the features and entry `i`
of the labels refer to the same shuffled (path, label) pair: entry `i`
of the labels is the numeric label of the category directory that
actually contained the image at shuffled position `i`, and feature row
`i` is the featurization of that same image's bytes. -/
theorem create_bottleneck_features_row_alignment (ex : Extractor)
    (shuffle : List (String × Nat) → List (String × Nat))
    (fs : FileSystem) (img_dir : String)
    (hdirs : ∀ folder ∈ folders, (fs.listdir (pathJoin img_dir folder)).isSome)
    (hread : ∀ pr ∈ allPairs fs img_dir, (fs.readFile pr.1).isSome)
    (hperm : ∀ xs, (shuffle xs).Perm xs)
    (hpos : 0 < totalImageCount fs img_dir) :
    ∃ out, create_bottleneck_features ex shuffle fs img_dir = some out ∧
      ∀ i, i < out.labels.length →
        ∃ fl ∈ label_map, ∃ image ∈ listingOf fs img_dir fl.1,
          (shuffle (allPairs fs img_dir))[i]? =
            some (pathJoin (pathJoin img_dir fl.1) image, fl.2) ∧
          out.labels[i]? = some fl.2 ∧
          out.features[i]? = some (ex.featurize ((fs.readFile
            (pathJoin (pathJoin img_dir fl.1) image)).getD [])) := by
  have hne : allPairs fs img_dir ≠ [] := by
    intro h0
    rw [← allPairs_length fs img_dir, h0] at hpos
    simp at hpos
  refine ⟨_, create_eq_some ex shuffle fs img_dir hdirs hperm hne hread, ?_⟩
  intro i hi
  have hi' : i < (shuffle (allPairs fs img_dir)).length := by
    simpa using hi
  have hSi : (shuffle (allPairs fs img_dir))[i]? =
      some ((shuffle (allPairs fs img_dir)).get ⟨i, hi'⟩) := by
    rw [List.getElem?_eq_getElem hi']
    rfl
  have hmem : (shuffle (allPairs fs img_dir)).get ⟨i, hi'⟩ ∈
      shuffle (allPairs fs img_dir) := List.get_mem _ _ hi'
  have hA : (shuffle (allPairs fs img_dir)).get ⟨i, hi'⟩ ∈
      allPairs fs img_dir := (hperm _).mem_iff.mp hmem
  rcases mem_allPairs hA with ⟨fl, hfl, image, himg, heq⟩
  refine ⟨fl, hfl, image, himg, ?_, ?_, ?_⟩
  · rw [hSi, heq]
  · show ((shuffle (allPairs fs img_dir)).map Prod.snd)[i]? = some fl.2
    rw [List.getElem?_map, hSi, heq]
    rfl
  · show ((shuffle (allPairs fs img_dir)).map
        (fun pr => ex.featurize ((fs.readFile pr.1).getD [])))[i]? = _
    rw [List.getElem?_map, hSi, heq]
    rfl

/-- Witness for C2 at a concrete tree with 3 + 5 images. -/
theorem create_bottleneck_features_row_alignment_witness :
    ∃ out, create_bottleneck_features constExtractor id fsW "d" = some out ∧
      ∀ i, i < out.labels.length →
        ∃ fl ∈ label_map, ∃ image ∈ listingOf fsW "d" fl.1,
          (id (allPairs fsW "d"))[i]? =
            some (pathJoin (pathJoin "d" fl.1) image, fl.2) ∧
          out.labels[i]? = some fl.2 ∧
          out.features[i]? = some (constExtractor.featurize ((fsW.readFile
            (pathJoin (pathJoin "d" fl.1) image)).getD [])) :=
  create_bottleneck_features_row_alignment constExtractor id fsW "d"
    (by decide) (by decide) (fun xs => List.Perm.refl xs) (by decide)

/-- C9: the label vocabulary is the fixed hard-coded list of six
category names in order Barren, Cultivated, Developed, Forest,
Herbaceous, Shrub, each assigned the index of its position in that
list, and every pair in the labeled image list carries the index of the
image's immediate parent directory's name under this mapping. -/
theorem label_vocabulary_assignment (fs : FileSystem) (img_dir : String)
    (hdirs : ∀ folder ∈ folders,
      (fs.listdir (pathJoin img_dir folder)).isSome) :
    folders = ["Barren", "Cultivated", "Developed",
               "Forest", "Herbaceous", "Shrub"] ∧
    (∀ fl ∈ label_map, folders.indexOf fl.1 = fl.2) ∧
    labeledImageList fs img_dir = some (allPairs fs img_dir) ∧
    ∀ pr ∈ allPairs fs img_dir, ∃ fl ∈ label_map,
      ∃ image ∈ listingOf fs img_dir fl.1,
        pr = (pathJoin (pathJoin img_dir fl.1) image, fl.2) ∧
        folders.indexOf fl.1 = fl.2 := by
  have hidx : ∀ fl ∈ label_map, folders.indexOf fl.1 = fl.2 := by decide
  refine ⟨by decide, hidx, labeledImageList_eq_some fs img_dir hdirs, ?_⟩
  intro pr hpr
  rcases mem_allPairs hpr with ⟨fl, hfl, image, himg, heq⟩
  exact ⟨fl, hfl, image, himg, heq, hidx fl hfl⟩

/-- C6: when one category directory exists but is empty (and the rest
of the input is valid with at least one image elsewhere), that category
contributes zero (path, label) pairs, the artifact's row count is the
total image count (which counts that category as zero), no row carries
that category's label, and no error is raised. -/
theorem create_bottleneck_features_empty_category (ex : Extractor)
    (shuffle : List (String × Nat) → List (String × Nat))
    (fs : FileSystem) (img_dir : String) (fl : String × Nat)
    (hfl : fl ∈ label_map)
    (hempty : fs.listdir (pathJoin img_dir fl.1) = some [])
    (hdirs : ∀ folder ∈ folders, (fs.listdir (pathJoin img_dir folder)).isSome)
    (hread : ∀ pr ∈ allPairs fs img_dir, (fs.readFile pr.1).isSome)
    (hperm : ∀ xs, (shuffle xs).Perm xs)
    (hpos : 0 < totalImageCount fs img_dir) :
    ∃ out, create_bottleneck_features ex shuffle fs img_dir = some out ∧
      out.labels.length = totalImageCount fs img_dir ∧
      (∀ pr ∈ allPairs fs img_dir, pr.2 ≠ fl.2) ∧
      out.labels.count fl.2 = 0 := by
  have hne : allPairs fs img_dir ≠ [] := by
    intro h0
    rw [← allPairs_length fs img_dir, h0] at hpos
    simp at hpos
  have hnolabel : ∀ pr ∈ allPairs fs img_dir, pr.2 ≠ fl.2 := by
    intro pr hpr
    rcases mem_allPairs hpr with ⟨fl', hfl', image, himg, heq⟩
    rw [heq]
    intro hsnd
    have hinj : ∀ a ∈ label_map, ∀ b ∈ label_map, a.2 = b.2 → a = b := by
      decide
    have hfl'eq : fl' = fl := hinj fl' hfl' fl hfl hsnd
    rw [hfl'eq, listingOf, hempty] at himg
    cases himg
  refine ⟨_, create_eq_some ex shuffle fs img_dir hdirs hperm hne hread,
    ?_, hnolabel, ?_⟩
  · simp [(hperm (allPairs fs img_dir)).length_eq, allPairs_length]
  · show ((shuffle (allPairs fs img_dir)).map Prod.snd).count fl.2 = 0
    rw [List.count_eq_zero]
    intro hmemv
    rcases List.mem_map.mp hmemv with ⟨pr, hpr, hsnd⟩
    exact hnolabel pr ((hperm _).mem_iff.mp hpr) hsnd

/-- Witness for C6: the `Developed` directory (label 2) is present and
empty in the concrete tree. -/
theorem create_bottleneck_features_empty_category_witness :
    ∃ out, create_bottleneck_features constExtractor id fsW "d" = some out ∧
      out.labels.length = totalImageCount fsW "d" ∧
      (∀ pr ∈ allPairs fsW "d", pr.2 ≠ ("Developed", 2).2) ∧
      out.labels.count ("Developed", 2).2 = 0 :=
  create_bottleneck_features_empty_category constExtractor id fsW "d"
    ("Developed", 2) (by decide) (by decide) (by decide) (by decide)
    (fun xs => List.Perm.refl xs) (by decide)

/-- C7 counterexample: an input directory holding only the two
populated category directories (3 and 5 images) with `batch_size` 4
makes the run abort on the missing `Developed` directory, so no
artifact with 8 rows is produced. -/
theorem scenario_two_categories_only_counterexample :
    run_job constExtractor id fsTwoOnly flagsB = none :=
  create_bottleneck_features_fail_fast constExtractor id fsTwoOnly "d"
    (fun xs => List.Perm.refl xs) (Or.inl (by decide))

/-- C7 (amended): with all six category directories present, two of
them holding 3 and 5 images and the other four empty, every file
readable, and `batch_size` 4 on the command line, the job produces an
artifact with features of shape (8, 2048) and labels of shape (8,),
whose label values are exactly the two categories' indices 0 and 1,
appearing 3 and 5 times respectively. -/
theorem scenario_two_nonempty_categories (ex : Extractor)
    (shuffle : List (String × Nat) → List (String × Nat))
    (fs : FileSystem) (flags : Flags)
    (_hbs : flags.batch_size = 4)
    (hdirs : ∀ folder ∈ folders,
      (fs.listdir (pathJoin flags.input_data_dir folder)).isSome)
    (h1 : (listingOf fs flags.input_data_dir "Barren").length = 3)
    (h2 : (listingOf fs flags.input_data_dir "Cultivated").length = 5)
    (h3 : (listingOf fs flags.input_data_dir "Developed").length = 0)
    (h4 : (listingOf fs flags.input_data_dir "Forest").length = 0)
    (h5 : (listingOf fs flags.input_data_dir "Herbaceous").length = 0)
    (h6 : (listingOf fs flags.input_data_dir "Shrub").length = 0)
    (hread : ∀ pr ∈ allPairs fs flags.input_data_dir,
      (fs.readFile pr.1).isSome)
    (hperm : ∀ xs, (shuffle xs).Perm xs) :
    ∃ out, run_job ex shuffle fs flags = some out ∧
      out.features.length = 8 ∧
      (∀ row ∈ out.features, row.length = 2048) ∧
      out.labels.length = 8 ∧
      out.labels.count 0 = 3 ∧
      out.labels.count 1 = 5 ∧
      ∀ v ∈ out.labels, v = 0 ∨ v = 1 := by
  have htot : totalImageCount fs flags.input_data_dir = 8 := by
    simp [totalImageCount, folders, label_map, h1, h2, h3, h4, h5, h6]
  have hne : allPairs fs flags.input_data_dir ≠ [] := by
    intro h0
    have := allPairs_length fs flags.input_data_dir
    rw [h0, htot] at this
    simp at this
  have hcount : ∀ v : Nat,
      ((shuffle (allPairs fs flags.input_data_dir)).map Prod.snd).count v =
      List.count v [0, 0, 0] + List.count v [1, 1, 1, 1, 1] := by
    intro v
    rw [((hperm _).map Prod.snd).count_eq, allPairs_map_snd,
      List.count_flatten]
    simp [label_map, h1, h2, h3, h4, h5, h6]
  refine ⟨_, create_eq_some ex shuffle fs flags.input_data_dir hdirs hperm
    hne hread, ?_, ?_, ?_, ?_, ?_, ?_⟩
  · simp [(hperm (allPairs fs flags.input_data_dir)).length_eq,
      allPairs_length, htot]
  · intro row hrow
    rcases List.mem_map.mp hrow with ⟨pr, _, rfl⟩
    exact ex.featurize_len _
  · simp [(hperm (allPairs fs flags.input_data_dir)).length_eq,
      allPairs_length, htot]
  · show ((shuffle (allPairs fs flags.input_data_dir)).map Prod.snd).count 0 = 3
    rw [hcount 0]
    decide
  · show ((shuffle (allPairs fs flags.input_data_dir)).map Prod.snd).count 1 = 5
    rw [hcount 1]
    decide
  · intro v hv
    by_contra hcon
    push_neg at hcon
    have hposv : 0 <
        ((shuffle (allPairs fs flags.input_data_dir)).map Prod.snd).count v :=
      List.count_pos_iff.mpr hv
    rw [hcount v, List.count_eq_zero.mpr (by simp [hcon.1]),
      List.count_eq_zero.mpr (by simp [hcon.2])] at hposv
    simp at hposv

/-- Witness for C7 at the concrete tree with 3 + 5 images and
`batch_size` 4. -/
theorem scenario_two_nonempty_categories_witness :
    ∃ out, run_job constExtractor id fsW flagsB = some out ∧
      out.features.length = 8 ∧
      (∀ row ∈ out.features, row.length = 2048) ∧
      out.labels.length = 8 ∧
      out.labels.count 0 = 3 ∧
      out.labels.count 1 = 5 ∧
      ∀ v ∈ out.labels, v = 0 ∨ v = 1 :=
  scenario_two_nonempty_categories constExtractor id fsW flagsB rfl
    (by decide) (by decide) (by decide) (by decide) (by decide) (by decide)
    (by decide) (by decide) (fun xs => List.Perm.refl xs)

/-- Witness for C9 at a concrete tree. -/
theorem label_vocabulary_assignment_witness :
    folders = ["Barren", "Cultivated", "Developed",
               "Forest", "Herbaceous", "Shrub"] ∧
    (∀ fl ∈ label_map, folders.indexOf fl.1 = fl.2) ∧
    labeledImageList fsW "d" = some (allPairs fsW "d") ∧
    ∀ pr ∈ allPairs fsW "d", ∃ fl ∈ label_map,
      ∃ image ∈ listingOf fsW "d" fl.1,
        pr = (pathJoin (pathJoin "d" fl.1) image, fl.2) ∧
        folders.indexOf fl.1 = fl.2 :=
  label_vocabulary_assignment fsW "d" (by decide)

end Extract
